import Mathlib

/-!
Verification development for the NetBots repository
(src/NeuralNet.py and src/NetBots.py).

Embedding conventions:
* Python floats are modelled as exact rationals (`ℚ`).
* `math.exp` and `math.sqrt` are modelled as uninterpreted parameters
  `qexp qsqrt : ℚ → ℚ`; no claim in this development depends on their
  values, only on the places where the source applies them.
* The global `random.Random` instance is modelled as two ambient streams
  `qs : ℕ → ℚ` (draws consumed by `random.uniform` / `random.random`)
  and `ns : ℕ → ℕ` (draws consumed by `random.randint`), together with a
  single threaded call counter `k : ℕ`, so that the call order of the
  source is preserved and runs are deterministic given the streams.
* Fallible Python code (KeyError, IndexError, ZeroDivisionError,
  tuple-unpacking failure) is modelled with `Option`, `none` meaning the
  statement raised.
* Python `dict`s keyed by the stringified global counters are modelled
  as lists in insertion order with `ℕ` ids (`str` of the counter is
  injective on counter values), lookups as `List.find?` on the id.
The graphical collaborators (tkinter canvas, `img`/`food_line` fields,
`update_food_img`/`update_bot_img` hooks, `BotsWindow`) only consume
snapshots and are omitted, as the specification's scope section states.
-/

namespace NetBots

/-- Gene of the serialized "genome" list produced by
`NeuralNetwork.encoded` (src/NeuralNet.py lines 95-98).  Because the
hidden-layer comprehension there is one `for` level short, the Python
list is heterogeneous: an element is either a whole hidden-layer neuron
(a list of weights) or a single output-layer weight. -/
abbrev Gene : Type := List ℚ ⊕ ℚ

section Model

variable (qexp qsqrt : ℚ → ℚ) (qs : ℕ → ℚ) (ns : ℕ → ℕ)

/-- `random.uniform(a, b)` (a ≤ b): some value in `[a, b]` determined by
the ambient stream `qs`; consumes one draw. -/
def rand_uniform (a b : ℚ) (k : ℕ) : ℚ × ℕ :=
  (if qs k < a then a else if b < qs k then b else qs k, k + 1)

/-- `random.randint(a, b)` (a ≤ b): some integer in `[a, b]` determined
by the ambient stream `ns`; consumes one draw.  (Python raises
`ValueError` for an empty range `a > b`; the model is only used with
`a ≤ b`.) -/
def rand_randint (a b k : ℕ) : ℕ × ℕ :=
  (a + ns k % (b + 1 - a), k + 1)

/-- `random.random()`: some value in `[0, 1]` determined by the ambient
stream `qs`; consumes one draw.  (Only ever used in a `< rate`
comparison, so the half-open upper end is not modelled.) -/
def rand_random (k : ℕ) : ℚ × ℕ :=
  (if qs k < 0 then 0 else if 1 < qs k then 1 else qs k, k + 1)

/-! ## src/NeuralNet.py -/

/-- `NEURON_WEIGHT_INIT_LOW` / `NEURON_WEIGHT_INIT_HIGH`
(src/NeuralNet.py lines 9, 11). -/
def NEURON_WEIGHT_INIT_LOW : ℚ := -1

def NEURON_WEIGHT_INIT_HIGH : ℚ := 1

/-- `HIDDEN_LAYER_FUNC` (src/NeuralNet.py line 13). -/
def HIDDEN_LAYER_FUNC : String := "leakyrelu6"

/-- `OUTPUT_LAYER_FUNC` (src/NeuralNet.py line 15). -/
def OUTPUT_LAYER_FUNC : String := "tanh"

/-- The `ACTIVATION_FUNCTIONS` dict (src/NeuralNet.py lines 18-25),
modelled as a by-name lookup returning `none` exactly when Python's
`ACTIVATION_FUNCTIONS[af]` would raise `KeyError`.  `math.exp` appears
as the uninterpreted parameter `qexp`. -/
def ACTIVATION_FUNCTIONS (name : String) : Option (ℚ → ℚ) :=
  if name = "logistic" then some (fun x => 1 / (1 + qexp (-1 * x)))
  else if name = "tanh" then some (fun x => (2 / (1 + qexp (-2 * x))) - 1)
  else if name = "relu" then some (fun x => if x > 0 then x else 0)
  else if name = "leakyrelu" then some (fun x => if x > 0 then x else 0.001 * x)
  else if name = "relu6" then
    some (fun x => if x ≥ 6 then 6 else if x > 0 then x else 0)
  else if name = "leakyrelu6" then
    some (fun x => if x ≥ 6 then 6 else if x > 0 then x else 0.001 * x)
  else none

/-- A fully-connected feedforward network
(class `NeuralNetwork`, src/NeuralNet.py line 28): a neuron is its
weight list (last weight is the bias weight), a layer is a neuron list. -/
structure NeuralNetwork where
  hidden_layers : List (List (List ℚ))
  hidden_af : String
  output_layer : List (List ℚ)
  output_af : String
deriving DecidableEq

/-- `[random.uniform(-1, 1) for i in range(count)]`: draw `count`
weights in order, threading the call counter. -/
def mk_weights : ℕ → ℕ → List ℚ × ℕ
  | 0, k => ([], k)
  | n + 1, k =>
    let p := rand_uniform qs (-1) 1 k
    let rest := mk_weights n p.2
    (p.1 :: rest.1, rest.2)

/-- Build `count` neurons of `wlen` weights each, in order
(the inner loop of `NeuralNetwork.__init__`, src/NeuralNet.py
lines 45-48 and 52-54; `wlen` is `inputs + 1`, the extra one for the
bias). -/
def mk_neurons : ℕ → ℕ → ℕ → List (List ℚ) × ℕ
  | 0, _, k => ([], k)
  | n + 1, wlen, k =>
    let neuron := mk_weights qs wlen k
    let rest := mk_neurons n wlen neuron.2
    (neuron.1 :: rest.1, rest.2)

/-- The hidden-layer loop of `NeuralNetwork.__init__`
(src/NeuralNet.py lines 43-50): for each entry `l` of `n_layers` build a
layer of `l` neurons with `inputs + 1` weights each, then set
`inputs = l`.  Returns the layers, the final value of `inputs`, and the
advanced call counter. -/
def mk_hidden : List ℕ → ℕ → ℕ → List (List (List ℚ)) × ℕ × ℕ
  | [], inputs, k => ([], inputs, k)
  | l :: rest, inputs, k =>
    let layer := mk_neurons qs l (inputs + 1) k
    let deeper := mk_hidden rest l layer.2
    (layer.1 :: deeper.1, deeper.2.1, deeper.2.2)

/-- `NeuralNetwork.__init__` (src/NeuralNet.py lines 29-54).  No
argument is validated; construction always completes, storing the
activation names as given. -/
def NeuralNetwork.init (n_inputs n_outputs : ℕ) (n_layers : List ℕ)
    (h_af o_af : String) (k : ℕ) : NeuralNetwork × ℕ :=
  let hidden := mk_hidden qs n_layers n_inputs k
  let out := mk_neurons qs n_outputs (hidden.2.1 + 1) hidden.2.2
  ({ hidden_layers := hidden.1, hidden_af := h_af,
     output_layer := out.1, output_af := o_af }, out.2)

/-- The `while i < len(neuron) - 1` loop of `calculate_neuron`
(src/NeuralNet.py lines 58-63): pair every weight except the last with
the matching input and collect the products; `none` models the
`IndexError` raised by `data[i]` when `data` runs out before the
non-bias weights do. -/
def weight_products : List ℚ → List ℚ → Option (List ℚ)
  | [], _ => some []
  | [_], _ => some []
  | w :: w' :: ws, d :: ds =>
    match weight_products (w' :: ws) ds with
    | none => none
    | some ps => some (w * d :: ps)
  | _ :: _ :: _, [] => none

/-- `NeuralNetwork.calculate_neuron` (src/NeuralNet.py lines 56-66):
products of weights and inputs, then the bias weight `neuron[i]` (with
`i = len(neuron) - 1` after the loop; `IndexError`, i.e. `none`, when
the neuron is empty) times the constant `-1` input, summed and passed
through the activation looked up by name (`KeyError`, i.e. `none`, for
an unknown name). -/
def calculate_neuron (neuron data : List ℚ) (af : String) : Option ℚ :=
  match weight_products neuron data with
  | none => none
  | some products =>
    match neuron.get? (neuron.length - 1) with
    | none => none
    | some w =>
      match ACTIVATION_FUNCTIONS qexp af with
      | none => none
      | some f => some (f ((products ++ [w * (-1)]).sum))

/-- One layer of `NeuralNetwork.feed_forward`: compute every neuron of
the layer on the same input vector, collecting results in order
(src/NeuralNet.py lines 75-79 and 86-89). -/
def feed_layer (af : String) : List (List ℚ) → List ℚ → Option (List ℚ)
  | [], _ => some []
  | neuron :: rest, data =>
    match calculate_neuron qexp neuron data af with
    | none => none
    | some y =>
      match feed_layer af rest data with
      | some ys => some (y :: ys)
      | none => none

/-- The hidden-layer loop of `feed_forward` (src/NeuralNet.py lines
74-83): each layer's output vector becomes the next layer's input
(`layer_input = next_layer_input`); note that an empty layer therefore
replaces the carried vector by `[]`. -/
def hidden_pass (af : String) : List (List (List ℚ)) → List ℚ → Option (List ℚ)
  | [], data => some data
  | layer :: rest, data =>
    match feed_layer qexp af layer data with
    | none => none
    | some next => hidden_pass af rest next

/-- `NeuralNetwork.feed_forward` (src/NeuralNet.py lines 68-92). -/
def NeuralNetwork.feed_forward (nn : NeuralNetwork) (data : List ℚ) :
    Option (List ℚ) :=
  match hidden_pass qexp nn.hidden_af nn.hidden_layers data with
  | none => none
  | some h => feed_layer qexp nn.output_af nn.output_layer h

/-- `NeuralNetwork.encoded` (src/NeuralNet.py lines 95-98).  In the
hidden comprehension `[weight for neuron in self.hidden_layers for
weight in neuron]` the name `neuron` ranges over the *layers* and
`weight` over the *neurons*, so each element contributed by the hidden
part is a whole neuron (a list, `Sum.inl`); the output comprehension
ranges over neurons and weights and contributes single weights
(`Sum.inr`). -/
def NeuralNetwork.encoded (nn : NeuralNetwork) : List Gene :=
  nn.hidden_layers.flatten.map Sum.inl ++ nn.output_layer.flatten.map Sum.inr

/-- `NeuralNetwork.decode` (src/NeuralNet.py lines 101-112).  The loop
body `neuron = weights[:len(neuron)]` rebinds the loop-local name
`neuron` (so the following `weights = weights[len(neuron):]` drops the
length of that new, possibly truncated, slice), and no attribute of
`self` is ever assigned: the stored layers are unchanged when the
method returns.  The folds below mirror the evolution of the local
`weights` variable; the network is rebuilt from its own (unmodified)
fields. -/
def NeuralNetwork.decode (nn : NeuralNetwork) (l : List Gene) : NeuralNetwork :=
  let w1 : List Gene := nn.hidden_layers.foldl
    (fun w layer => layer.foldl
      (fun w' neuron => w'.drop (w'.take neuron.length).length) w) l
  let _w2 : List Gene := nn.output_layer.foldl
    (fun w' neuron => w'.drop (w'.take neuron.length).length) w1
  { hidden_layers := nn.hidden_layers, hidden_af := nn.hidden_af,
    output_layer := nn.output_layer, output_af := nn.output_af }

/-- Total trainable weight count of a network's topology, as §3 of the
specification defines the genome length (sum over all hidden and output
neurons of their weight-list lengths). -/
def total_weight_count (nn : NeuralNetwork) : ℕ :=
  (nn.hidden_layers.map (fun layer => (layer.map List.length).sum)).sum
    + (nn.output_layer.map List.length).sum

/-- Modelled from the spec (§3 "Genome"): the flat ordered sequence of
reals the specification says `encode` returns — hidden layers in order,
each layer's neurons in order, each neuron's weights in order, then the
output layer identically.  Kept separate from `NeuralNetwork.encoded`,
which is translated from the source, so the two can be compared. -/
def spec_encoded (nn : NeuralNetwork) : List ℚ :=
  (nn.hidden_layers.map List.flatten).flatten ++ nn.output_layer.flatten

/-! ## src/NetBots.py -/

/-- `WIDTH` (src/NetBots.py line 29). -/
def WIDTH : ℕ := 800

/-- `HEIGHT` (src/NetBots.py line 30). -/
def HEIGHT : ℕ := 600

/-- `BOT_SIZE` (src/NetBots.py line 34). -/
def BOT_SIZE : ℕ := 8

/-- `BOT_SIZE_HALF = round(BOT_SIZE / 2)` (line 35); `8 / 2 = 4.0` is
exact, so the rounding is exact division. -/
def BOT_SIZE_HALF : ℕ := BOT_SIZE / 2

/-- `FOOD_SIZE` (src/NetBots.py line 37). -/
def FOOD_SIZE : ℕ := 6

/-- `FOOD_SIZE_HALF = round(FOOD_SIZE / 2)` (line 38); `6 / 2 = 3.0` is
exact. -/
def FOOD_SIZE_HALF : ℕ := FOOD_SIZE / 2

/-- `TRAINING_EPOCH` (src/NetBots.py line 48). -/
def TRAINING_EPOCH : ℕ := 30

/-- `EPOCH_LENGTH` (src/NetBots.py line 50). -/
def EPOCH_LENGTH : ℕ := 1500

/-- `POPULATION` (src/NetBots.py line 52). -/
def POPULATION : ℕ := 30

/-- `FOOD_SUPPLY` (src/NetBots.py line 54). -/
def FOOD_SUPPLY : ℕ := 10

/-- `MIN_DISTANCE_TO_CAPTURE = BOT_SIZE_HALF + FOOD_SIZE_HALF`
(src/NetBots.py line 59), used in a comparison against a float
distance, hence stated in `ℚ`; its value is `7`. -/
def MIN_DISTANCE_TO_CAPTURE : ℚ := (BOT_SIZE_HALF : ℚ) + (FOOD_SIZE_HALF : ℚ)

/-- `NETWORK_INPUTS` (src/NetBots.py line 61). -/
def NETWORK_INPUTS : ℕ := 4

/-- `NETWORK_OUTPUTS` (src/NetBots.py line 63). -/
def NETWORK_OUTPUTS : ℕ := 2

/-- `NETWORK_LAYERS` (src/NetBots.py line 70). -/
def NETWORK_LAYERS : List ℕ := [6]

/-- `NETWORK_HIDDEN_LAYER_AF` (src/NetBots.py line 82). -/
def NETWORK_HIDDEN_LAYER_AF : String := "leakyrelu6"

/-- `NETWORK_OUTPUT_LAYER_AF` (src/NetBots.py line 83). -/
def NETWORK_OUTPUT_LAYER_AF : String := "tanh"

/-- `EVOLUTION_MUTATION_RATE` (src/NetBots.py line 84). -/
def EVOLUTION_MUTATION_RATE : ℚ := 0.05

section World

/-- `distance(x1, y1, x2, y2)` (src/NetBots.py lines 86-87); `math.sqrt`
appears as the uninterpreted parameter `qsqrt`. -/
def distance (x1 y1 x2 y2 : ℚ) : ℚ :=
  qsqrt ((x2 - x1) ^ 2 + (y2 - y1) ^ 2)

/-- A `Food` entity (class `Food`, src/NetBots.py lines 123-128): a
random position from `Entity.__init__` and a unique id drawn from the
global `FOOD_COUNTER`.  The graphics field `img` is omitted. -/
structure Food where
  id : ℕ
  x : ℚ
  y : ℚ
deriving DecidableEq

/-- A `Bot` entity (class `Bot`, src/NetBots.py lines 95-111): random
position, owned network, capture score, current target (a food id or
`None`), unique id from the global `BOT_COUNTER`, and last movement
delta.  The graphics fields `img` and `food_line` are omitted. -/
structure Bot where
  id : ℕ
  x : ℚ
  y : ℚ
  nn : NeuralNetwork
  score : ℕ
  target : Option ℕ
  dx : ℚ
  dy : ℚ
deriving DecidableEq

/-- `Entity.__init__` position draws (src/NetBots.py lines 90-92):
`random.randint(100, WIDTH - 100)` then `random.randint(100, HEIGHT -
100)`.  Returns `(x, y, advanced counter)`. -/
def entity_pos (k : ℕ) : ℕ × ℕ × ℕ :=
  let px := rand_randint ns 100 (WIDTH - 100) k
  let py := rand_randint ns 100 (HEIGHT - 100) px.2
  (px.1, py.1, py.2)

/-- `Food.__init__` (src/NetBots.py lines 123-128): a fresh position and
the current `FOOD_COUNTER` as id.  Returns the food, the incremented
food counter, and the advanced random counter. -/
def mk_food (fc k : ℕ) : Food × ℕ × ℕ :=
  let p := entity_pos ns k
  ({ id := fc, x := (p.1 : ℚ), y := (p.2.1 : ℚ) }, fc + 1, p.2.2)

/-- `Bot.__init__` (src/NetBots.py lines 96-111) given the network `n`:
a fresh position, score `0`, no target, the current `BOT_COUNTER` as
id, and `dx = dy = 0`.  Returns the bot, the incremented bot counter,
and the advanced random counter. -/
def mk_bot (n : NeuralNetwork) (bc k : ℕ) : Bot × ℕ × ℕ :=
  let p := entity_pos ns k
  ({ id := bc, x := (p.1 : ℚ), y := (p.2.1 : ℚ), nn := n, score := 0,
     target := none, dx := 0, dy := 0 }, bc + 1, p.2.2)

/-- Python `dict` assignment `d[key] = value` on an id-keyed dict held
as a list in insertion order: replace in place if the id is present,
otherwise append. -/
def dict_set (foods : List Food) (f : Food) : List Food :=
  if foods.any (fun g => g.id = f.id) then
    foods.map (fun g => if g.id = f.id then f else g)
  else foods ++ [f]

/-- Python `dict` lookup `self.food[key]`; `none` models `KeyError`. -/
def food_get (foods : List Food) (i : ℕ) : Option Food :=
  foods.find? (fun g => g.id = i)

/-- The `for _ in range(FOOD_SUPPLY)` loop of `BotWorld.__init__`
(src/NetBots.py lines 131-136): create `n` foods in order, inserting
each into the dict (fresh ids, so each insertion appends). -/
def mk_foods : ℕ → ℕ → ℕ → List Food × ℕ × ℕ
  | 0, fc, k => ([], fc, k)
  | n + 1, fc, k =>
    let f := mk_food ns fc k
    let rest := mk_foods n f.2.1 f.2.2
    (f.1 :: rest.1, rest.2.1, rest.2.2)

/-- `BotWorld.replace_food(f)` (src/NetBots.py lines 143-149): create a
new food (fresh id from the food counter), insert it into the dict,
then `pop` the captured id `fid`.  The `img` recycling and the
`update_food_img` notification hook are graphics collaborators and are
omitted.  Returns the new food list, food counter, and random counter. -/
def replace_food (foods : List Food) (fc k : ℕ) (fid : ℕ) :
    List Food × ℕ × ℕ :=
  let f := mk_food ns fc k
  let inserted := dict_set foods f.1
  (inserted.filter (fun g => g.id ≠ fid), f.2.1, f.2.2)

/-- The nearest-food scan of `BotWorld.update` (src/NetBots.py lines
157-164): fold over the food dict in insertion order keeping the first
strict minimum (`dist < mindist`), starting from `mindist = None`,
`best_target = None`.  Returns `(best_target, mindist)`. -/
def find_target_go (bx byy : ℚ) :
    List Food → Option ℕ → Option ℚ → Option ℕ × Option ℚ
  | [], best, mind => (best, mind)
  | f :: rest, best, mind =>
    let dist := distance qsqrt f.x f.y bx byy
    match mind with
    | none => find_target_go bx byy rest (some f.id) (some dist)
    | some m =>
      if dist < m then find_target_go bx byy rest (some f.id) (some dist)
      else find_target_go bx byy rest best mind

def find_target (foods : List Food) (bx byy : ℚ) : Option ℕ × Option ℚ :=
  find_target_go qsqrt bx byy foods none none

/-- The movement part of `Bot.update(food)` after the divisor `v` has
been computed (src/NetBots.py lines 115-121): normalized direction to
the food, own position scaled by the world size, two network outputs
unpacked into `(dx, dy)` (`none` when evaluation raises or does not
yield exactly two values), added to the position unconditionally. -/
def Bot.move (bot : Bot) (f : Food) (v : ℚ) : Option Bot :=
  match NeuralNetwork.feed_forward qexp bot.nn
      [(bot.x - f.x) / v, (bot.y - f.y) / v,
        bot.x / (WIDTH : ℚ), bot.y / (HEIGHT : ℚ)] with
  | some [dx, dy] =>
    some { bot with dx := dx, dy := dy, x := bot.x + dx, y := bot.y + dy }
  | _ => none

/-- `Bot.update(food)` (src/NetBots.py lines 113-121): compute
`v = distance(food.x, food.y, self.x, self.y)`; the divisions by `v`
raise `ZeroDivisionError` (`none`) when `v = 0`. -/
def Bot.update (bot : Bot) (f : Food) : Option Bot :=
  let v := distance qsqrt f.x f.y bot.x bot.y
  if v = 0 then none else Bot.move qexp bot f v

/-- The body of the `for b in self.bots` loop of `BotWorld.update`
(src/NetBots.py lines 155-174) for one bot: find the nearest food, set
it as target, then either capture (replace the food, increment the
score) when the recomputed distance is strictly below
`MIN_DISTANCE_TO_CAPTURE`, or move via the network.  The
`update_bot_img` hook is a graphics collaborator and is omitted.
`none` models an uncaught exception (`KeyError` on an empty food dict,
`ZeroDivisionError`, or a network evaluation error). -/
def bot_tick (foods : List Food) (fc k : ℕ) (bot : Bot) :
    Option (Bot × List Food × ℕ × ℕ) :=
  match (find_target qsqrt foods bot.x bot.y).1 with
  | none => none
  | some tid =>
    let b1 : Bot := { bot with target := some tid }
    match food_get foods tid with
    | none => none
    | some f =>
      if distance qsqrt f.x f.y b1.x b1.y < MIN_DISTANCE_TO_CAPTURE then
        let rep := replace_food ns foods fc k tid
        some ({ b1 with score := b1.score + 1 }, rep.1, rep.2.1, rep.2.2)
      else
        match Bot.update qexp qsqrt b1 f with
        | none => none
        | some b2 => some (b2, foods, fc, k)

/-- One frame of `BotWorld.update` (the `for b in self.bots` loop,
src/NetBots.py lines 155-174): process the bots in dict-insertion
order, threading the food dict, the food counter and the random
counter. -/
def bots_for_loop :
    List Bot → List Food → ℕ → ℕ → Option (List Bot × List Food × ℕ × ℕ)
  | [], foods, fc, k => some ([], foods, fc, k)
  | b :: rest, foods, fc, k =>
    match bot_tick qexp qsqrt ns foods fc k b with
    | none => none
    | some s =>
      match bots_for_loop rest s.2.1 s.2.2.1 s.2.2.2 with
      | none => none
      | some t => some (s.1 :: t.1, t.2.1, t.2.2.1, t.2.2.2)

/-- `BotWorld.update(length)` (src/NetBots.py lines 152-175): run the
per-bot loop `length` times (`while n < length`). -/
def world_update :
    ℕ → List Bot → List Food → ℕ → ℕ → Option (List Bot × List Food × ℕ × ℕ)
  | 0, bots, foods, fc, k => some (bots, foods, fc, k)
  | n + 1, bots, foods, fc, k =>
    match bots_for_loop qexp qsqrt ns bots foods fc k with
    | none => none
    | some s => world_update n s.1 s.2.1 s.2.2.1 s.2.2.2

/-- The population-construction loop of `EvolutionAlgorithm.__init__`
(src/NetBots.py lines 185-187): `POPULATION` calls `Bot()`.  Python
evaluates the default argument of `Bot.__init__` exactly once, when the
class statement is executed, so every such call receives the same
network object; that single value is the parameter `dflt` here. -/
def evolution_init_go (dflt : NeuralNetwork) :
    ℕ → ℕ → ℕ → List Bot × ℕ × ℕ
  | 0, bc, k => ([], bc, k)
  | n + 1, bc, k =>
    let b := mk_bot ns dflt bc k
    let rest := evolution_init_go dflt n b.2.1 b.2.2
    (b.1 :: rest.1, rest.2.1, rest.2.2)

/-- `EvolutionAlgorithm.__init__` (src/NetBots.py lines 179-187),
population part: the initial bots in dict-insertion order. -/
def evolution_init (dflt : NeuralNetwork) (bc k : ℕ) : List Bot × ℕ × ℕ :=
  evolution_init_go ns dflt POPULATION bc k

/-- The crossover-and-mutation block of `EvolutionAlgorithm.train`
(src/NetBots.py lines 231-251) applied to the two already-selected
parents' encoded weight lists: draw the crossover index in
`[1, len(parent_a_weights) - 1]`, flip `randint(0, 1)` to pick which
parent contributes the prefix, then with probability
`EVOLUTION_MUTATION_RATE` overwrite one uniformly indexed gene with a
fresh `uniform(-1, 1)` float.  The `self.mutations` statistics counter
is trainer state and not part of the genome, so it is not returned. -/
def breed_genome (pa pb : List Gene) (k : ℕ) : List Gene × ℕ :=
  let pc := rand_randint ns 1 (pa.length - 1) k
  let coin := rand_randint ns 0 1 pc.2
  let crossed :=
    if coin.1 ≠ 0 then pa.take pc.1 ++ pb.drop pc.1
    else pb.take pc.1 ++ pa.drop pc.1
  let g := rand_random qs coin.2
  if g.1 < EVOLUTION_MUTATION_RATE then
    let m := rand_randint ns 0 (crossed.length - 1) g.2
    let v := rand_uniform qs (-1) 1 m.2
    (crossed.set m.1 (Sum.inr v.1), v.2)
  else (crossed, g.2)

end World

end Model

/-! ## Concrete instances used as inputs of the theorems -/

/-- A random stream whose first `uniform(-1, 1)` draw is `1` and whose
later draws are `0`. -/
def c1_stream : ℕ → ℚ := fun k => if k = 0 then 1 else 0

/-- A 1-input, 1-output, no-hidden-layer network constructed by
`NeuralNetwork.__init__` from `c1_stream`: its output neuron is
`[1, 0]`. -/
def c1_net1 : NeuralNetwork :=
  (NeuralNetwork.init c1_stream 1 1 [] "relu" "relu" 0).1

/-- A fresh network of the same topology constructed from the all-zero
stream: its output neuron is `[0, 0]`. -/
def c1_net2 : NeuralNetwork :=
  (NeuralNetwork.init (fun _ => 0) 1 1 [] "relu" "relu" 0).1

/-- A random stream giving the weight draws `1, -1, 1/2, -1/2`. -/
def c2_stream : ℕ → ℚ := fun k =>
  if k = 0 then 1 else if k = 1 then -1 else if k = 2 then 1 / 2 else -1 / 2

/-- A 1-input, 1-output network with one hidden layer of one neuron,
constructed by `NeuralNetwork.__init__` from `c2_stream`: hidden neuron
`[1, -1]`, output neuron `[1/2, -1/2]`; its topology has 4 weights. -/
def c2_net : NeuralNetwork :=
  (NeuralNetwork.init c2_stream 1 1 [1] "relu" "relu" 0).1

/-- A 1-input, 1-output, no-hidden-layer network with output neuron
`[1, 0]`, a possible weight assignment of the constructor. -/
def c4_net : NeuralNetwork := ⟨[], "relu", [[1, 0]], "relu"⟩

/-- The network built by `NeuralNetwork.__init__` when the activation
name `"bogus"` — not a key of `ACTIVATION_FUNCTIONS` — is supplied for
both layers (all-zero random stream). -/
def c5_net : NeuralNetwork :=
  (NeuralNetwork.init (fun _ => 0) 1 1 [] "bogus" "bogus" 0).1

/-- The network built by `NeuralNetwork.__init__` for
`n_layers = [0]` (a zero-sized hidden layer), all-zero random stream:
the hidden layer is empty and the output neuron, built after `inputs`
was set to `0`, is the single bias weight `[0]`. -/
def c9_net : NeuralNetwork :=
  (NeuralNetwork.init (fun _ => 0) 1 1 [0] "relu" "relu" 0).1

/-- A 4-input, 2-output network (no hidden layer, all-zero weights,
relu activations) used to instantiate world-simulation theorems. -/
def w_net : NeuralNetwork :=
  ⟨[], "relu", [[0, 0, 0, 0, 0], [0, 0, 0, 0, 0]], "relu"⟩

/-- A bot at the origin owning `w_net`. -/
def w_bot : Bot := ⟨0, 0, 0, w_net, 0, none, 0, 0⟩

/-- A food whose computed distance from the origin under `qsqrt = id`
is `100`, beyond the capture threshold `7`. -/
def w_food_far : Food := ⟨5, 0, 10⟩

/-- A food whose computed distance from the origin under `qsqrt = id`
is `1`, inside the capture threshold `7`. -/
def w_food_near : Food := ⟨5, 0, 1⟩

/-- The all-zero `randint` stream used by the world witnesses. -/
def c6_ns : ℕ → ℕ := fun _ => 0

/-- The food dict created by `BotWorld.__init__` from counter 0 under
`c6_ns` (ids 0..9, all at position (100, 100)). -/
def c6_foods : List Food := (mk_foods c6_ns FOOD_SUPPLY 0 0).1

/-- The food counter after that initialization. -/
def c6_fc : ℕ := (mk_foods c6_ns FOOD_SUPPLY 0 0).2.1

/-- The random-call counter after that initialization. -/
def c6_k : ℕ := (mk_foods c6_ns FOOD_SUPPLY 0 0).2.2

/-! ## Helper lemmas -/

/-- `decode` returns the network with every stored field unchanged:
the Python loop only rebinds the local names `neuron` and `weights`. -/
theorem decode_eq_self (nn : NeuralNetwork) (l : List Gene) :
    nn.decode l = nn := rfl

/-- The `while` loop of `calculate_neuron` raises `IndexError` when the
input vector is shorter than the number of non-bias weights. -/
theorem weight_products_eq_none :
    ∀ (ds ws : List ℚ), ds.length + 1 < ws.length →
      weight_products ws ds = none := by
  intro ds
  induction ds with
  | nil =>
    intro ws h
    match ws with
    | [] => simp at h
    | [w] => simp at h
    | w :: w' :: ws => rfl
  | cons d ds ih =>
    intro ws h
    match ws with
    | [] => simp at h
    | [w] => simp at h
    | w :: w' :: ws =>
      have h' : ds.length + 1 < (w' :: ws).length := by
        simp at h ⊢; omega
      simp only [weight_products, ih (w' :: ws) h']

/-- An activation name that is not one of the six registry keys makes
the dict lookup raise `KeyError`. -/
theorem activation_lookup_eq_none (qexp : ℚ → ℚ) (name : String)
    (h : name ∉ ["logistic", "tanh", "relu", "leakyrelu", "relu6",
      "leakyrelu6"]) :
    ACTIVATION_FUNCTIONS qexp name = none := by
  simp only [List.mem_cons, List.not_mem_nil, or_false, not_or] at h
  obtain ⟨h1, h2, h3, h4, h5, h6⟩ := h
  simp [ACTIVATION_FUNCTIONS, h1, h2, h3, h4, h5, h6]

/-- `calculate_neuron` with an unknown activation name always raises. -/
theorem calculate_neuron_unknown_af (qexp : ℚ → ℚ) (name : String)
    (h : ACTIVATION_FUNCTIONS qexp name = none)
    (neuron data : List ℚ) :
    calculate_neuron qexp neuron data name = none := by
  unfold calculate_neuron
  cases weight_products neuron data with
  | none => rfl
  | some products =>
    cases neuron.get? (neuron.length - 1) with
    | none => rfl
    | some w => simp only [h]

/-! ## Claims -/

/-- Claim C1 (code bug): the claim says `decode` overwrites every
neuron's stored weight vector in place so that decoding
`encode(net)` into a fresh same-topology network reproduces the
original `feed_forward` outputs.  The code does not: the loop of
`decode` rebinds the loop-local alias `neuron` and never writes `self`
(the very defect the specification says must not be reproduced), so a
fresh same-topology network keeps its own random weights after
`decode`, and the round-trip output differs from the original's.
Here `c1_net1` ([1, 0] weights) evaluates to `[1]` on input `[1]`,
while the fresh `c1_net2` after decoding `c1_net1.encoded` still
evaluates to `[0]`. -/
theorem decode_roundtrip_fails_on_code :
    (∀ (nn : NeuralNetwork) (l : List Gene), nn.decode l = nn)
    ∧ c1_net1.output_layer = [[1, 0]]
    ∧ c1_net2.output_layer = [[0, 0]]
    ∧ c1_net2.decode c1_net1.encoded = c1_net2
    ∧ (∀ qexp : ℚ → ℚ, NeuralNetwork.feed_forward qexp c1_net1 [1] = some [1])
    ∧ (∀ qexp : ℚ → ℚ,
        NeuralNetwork.feed_forward qexp (c1_net2.decode c1_net1.encoded) [1]
          = some [0])
    ∧ some [(0 : ℚ)] ≠ some [(1 : ℚ)] := by
  refine ⟨decode_eq_self, ?_, ?_, decode_eq_self _ _,
    fun qexp => ?_, fun qexp => ?_, by simp⟩
  · simp [c1_net1, NeuralNetwork.init, mk_hidden, mk_neurons, mk_weights,
      rand_uniform, c1_stream]
    norm_num
  · simp [c1_net2, NeuralNetwork.init, mk_hidden, mk_neurons, mk_weights,
      rand_uniform]
    norm_num
  · simp [c1_net1, NeuralNetwork.init, mk_hidden, mk_neurons, mk_weights,
      rand_uniform, c1_stream, NeuralNetwork.feed_forward, hidden_pass,
      feed_layer, calculate_neuron, weight_products, ACTIVATION_FUNCTIONS]
    try norm_num
  · simp [decode_eq_self, c1_net2, NeuralNetwork.init, mk_hidden, mk_neurons,
      mk_weights, rand_uniform, NeuralNetwork.feed_forward, hidden_pass,
      feed_layer, calculate_neuron, weight_products, ACTIVATION_FUNCTIONS]
    try norm_num

/-- Claim C2 (code bug): the claim says `encoded` returns a flat list
of reals of length equal to the topology's total weight count.  The
code's hidden-layer comprehension is one `for` level short, so each
hidden *neuron* (a list) is emitted as a single element: for `c2_net`
(topology 1 → [1] → 1, 4 weights in total) the encoding has length 3,
its first element is the whole hidden neuron `[1, -1]`, and only the
spec-side `spec_encoded` has the stated length. -/
theorem encoded_not_flat_on_code :
    c2_net.encoded
      = [Sum.inl [1, -1], Sum.inr (1 / 2), Sum.inr (-(1 / 2))]
    ∧ c2_net.encoded.length = 3
    ∧ total_weight_count c2_net = 4
    ∧ spec_encoded c2_net = [1, -1, 1 / 2, -(1 / 2)]
    ∧ (spec_encoded c2_net).length = total_weight_count c2_net
    ∧ c2_net.encoded.length ≠ total_weight_count c2_net
    ∧ (∃ g ∈ c2_net.encoded, ∀ q : ℚ, g ≠ Sum.inr q) := by
  have hnet : c2_net = ⟨[[[1, -1]]], "relu", [[1 / 2, -(1 / 2)]], "relu"⟩ := by
    simp [c2_net, NeuralNetwork.init, mk_hidden, mk_neurons, mk_weights,
      rand_uniform, c2_stream]
    norm_num
  refine ⟨?_, ?_, ?_, ?_, ?_, ?_, ?_⟩
  · rw [hnet]; simp [NeuralNetwork.encoded]
  · rw [hnet]; simp [NeuralNetwork.encoded]
  · rw [hnet]; simp [total_weight_count]
  · rw [hnet]; simp [spec_encoded]
  · rw [hnet]; simp [spec_encoded, total_weight_count]
  · rw [hnet]; simp [NeuralNetwork.encoded, total_weight_count]
  · rw [hnet]
    exact ⟨Sum.inl [1, -1], by simp [NeuralNetwork.encoded],
      fun q h => Sum.noConfusion h⟩

/-- Claim C4, the claim as stated refuted at a concrete input:
`decode` called with a genome of length 0 while `encoded` has length 2
raises nothing (and, vacuously, modifies nothing), and `feed_forward`
called with an input vector of length 2 on a 1-input network raises
nothing either — no `GenomeLengthMismatch`-class error exists in the
code. -/
theorem wrong_length_raises_nothing :
    c4_net.encoded.length = 2
    ∧ ([] : List Gene).length ≠ c4_net.encoded.length
    ∧ c4_net.decode [] = c4_net
    ∧ [(1 : ℚ), 5].length ≠ 1
    ∧ NeuralNetwork.feed_forward id c4_net [1, 5] = some [1] := by
  refine ⟨by simp [c4_net, NeuralNetwork.encoded], ?_, decode_eq_self _ _,
    by simp, ?_⟩
  · simp [c4_net, NeuralNetwork.encoded]
  · simp [c4_net, NeuralNetwork.feed_forward, hidden_pass, feed_layer,
      calculate_neuron, weight_products, ACTIVATION_FUNCTIONS]
    try norm_num

/-- Claim C4 (corrected): `decode` never raises for any genome length
and leaves every stored weight unchanged; an error in evaluation occurs
only when the input vector is too short for a neuron's non-bias
weights (Python `IndexError` at `data[i]`), in which case `none` is
returned — a longer-than-needed input raises nothing (see
`wrong_length_raises_nothing`). -/
theorem decode_total_and_short_input_errors (qexp : ℚ → ℚ)
    (nn : NeuralNetwork) (l : List Gene) (haf : String)
    (neuron data : List ℚ) (af : String)
    (h : data.length + 1 < neuron.length) :
    nn.decode l = nn
    ∧ calculate_neuron qexp neuron data af = none
    ∧ NeuralNetwork.feed_forward qexp ⟨[], haf, [neuron], af⟩ data = none := by
  have hwp : weight_products neuron data = none :=
    weight_products_eq_none data neuron h
  refine ⟨decode_eq_self _ _, ?_, ?_⟩
  · unfold calculate_neuron
    simp only [hwp]
  · unfold NeuralNetwork.feed_forward hidden_pass feed_layer calculate_neuron
    simp only [hwp]

theorem decode_total_and_short_input_errors_witness :
    NeuralNetwork.decode ⟨[], "relu", [[0, 0]], "relu"⟩ []
        = ⟨[], "relu", [[0, 0]], "relu"⟩
    ∧ calculate_neuron id [0, 0] [] "relu" = none
    ∧ NeuralNetwork.feed_forward id ⟨[], "relu", [[0, 0]], "relu"⟩ [] = none :=
  decode_total_and_short_input_errors id ⟨[], "relu", [[0, 0]], "relu"⟩ []
    "relu" [0, 0] [] "relu" (by decide)

/-- Claim C5, the claim as stated refuted at a concrete input:
constructing a network with the unknown activation name `"bogus"`
completes normally — the constructor validates nothing and stores the
name — and the `KeyError` surfaces only when evaluation reaches the
registry lookup inside `calculate_neuron`. -/
theorem unknown_name_accepted_at_construction :
    c5_net = ⟨[], "bogus", [[0, 0]], "bogus"⟩
    ∧ (∀ qexp : ℚ → ℚ, ACTIVATION_FUNCTIONS qexp "bogus" = none)
    ∧ (∀ qexp : ℚ → ℚ, NeuralNetwork.feed_forward qexp c5_net [1] = none) := by
  have hnet : c5_net = ⟨[], "bogus", [[0, 0]], "bogus"⟩ := by
    simp [c5_net, NeuralNetwork.init, mk_hidden, mk_neurons, mk_weights,
      rand_uniform]
    norm_num
  refine ⟨hnet, fun qexp => by simp [ACTIVATION_FUNCTIONS], fun qexp => ?_⟩
  rw [hnet]
  simp [NeuralNetwork.feed_forward, hidden_pass, feed_layer,
    calculate_neuron, weight_products, ACTIVATION_FUNCTIONS]

/-- Claim C5 (corrected): an activation name outside the closed
enumerated set is accepted silently at construction (the constructor
stores it unvalidated) and is detected only at evaluation time, when
`calculate_neuron`'s registry lookup raises: every neuron evaluation
with the unknown name returns `none`, and so does `feed_forward` of any
network whose output layer is nonempty and carries the unknown name. -/
theorem unknown_name_errors_at_evaluation (qexp : ℚ → ℚ) (name : String)
    (h : name ∉ ["logistic", "tanh", "relu", "leakyrelu", "relu6",
      "leakyrelu6"]) :
    ACTIVATION_FUNCTIONS qexp name = none
    ∧ (∀ (qs : ℕ → ℚ) (i o : ℕ) (nl : List ℕ) (haf : String) (k : ℕ),
        ((NeuralNetwork.init qs i o nl haf name k).1).output_af = name
        ∧ ((NeuralNetwork.init qs i o nl name haf k).1).hidden_af = name)
    ∧ (∀ neuron data : List ℚ, calculate_neuron qexp neuron data name = none)
    ∧ (∀ (haf : String) (neuron : List ℚ) (rest : List (List ℚ))
        (data : List ℚ),
        NeuralNetwork.feed_forward qexp ⟨[], haf, neuron :: rest, name⟩ data
          = none) := by
  have h0 := activation_lookup_eq_none qexp name h
  refine ⟨h0, fun qs i o nl haf k => ⟨rfl, rfl⟩,
    fun neuron data => calculate_neuron_unknown_af qexp name h0 neuron data,
    fun haf neuron rest data => ?_⟩
  unfold NeuralNetwork.feed_forward hidden_pass feed_layer
  simp only [calculate_neuron_unknown_af qexp name h0]

theorem unknown_name_errors_at_evaluation_witness :
    ACTIVATION_FUNCTIONS id "bogus" = none
    ∧ calculate_neuron id [0] [] "bogus" = none :=
  ⟨(unknown_name_errors_at_evaluation id "bogus" (by decide)).1,
    (unknown_name_errors_at_evaluation id "bogus" (by decide)).2.2.1 [0] []⟩

/-- Claim C9 (code bug): the claim (and the code's own comment, "[0]
would exclude the hidden layer completely") says a zero-sized hidden
layer is a no-op passthrough.  Construction with `[0]` is indeed legal
and evaluation completes, but the zero-sized layer replaces the carried
vector with `[]` (the loop sets `layer_input = next_layer_input` and no
neuron appended anything) and the following layer was built with
`inputs = 0`, i.e. bias-only neurons — so `c9_net`'s output is `[0]`
for every input vector, not a function of the passed-through input. -/
theorem zero_layer_blanks_signal :
    c9_net = ⟨[[]], "relu", [[0]], "relu"⟩
    ∧ (∀ (qexp : ℚ → ℚ) (af : String) (data : List ℚ),
        hidden_pass qexp af [[]] data = some [])
    ∧ (∀ (qexp : ℚ → ℚ) (af : String),
        hidden_pass qexp af [[]] [(1 : ℚ)] ≠ some [(1 : ℚ)])
    ∧ (∀ (qexp : ℚ → ℚ) (data : List ℚ),
        NeuralNetwork.feed_forward qexp c9_net data = some [0]) := by
  have hnet : c9_net = ⟨[[]], "relu", [[0]], "relu"⟩ := by
    simp [c9_net, NeuralNetwork.init, mk_hidden, mk_neurons, mk_weights,
      rand_uniform]
    norm_num
  have hblank : ∀ (qexp : ℚ → ℚ) (af : String) (data : List ℚ),
      hidden_pass qexp af [[]] data = some [] := fun qexp af data => rfl
  refine ⟨hnet, hblank, fun qexp af h => ?_, fun qexp data => ?_⟩
  · rw [hblank] at h
    simp at h
  · rw [hnet]
    simp [NeuralNetwork.feed_forward, hidden_pass, feed_layer,
      calculate_neuron, weight_products, ACTIVATION_FUNCTIONS]

/-- Every bot built by the `EvolutionAlgorithm.__init__` loop carries
the one default network, and the population has the requested size. -/
theorem evolution_init_go_nn (ns : ℕ → ℕ) (dflt : NeuralNetwork) :
    ∀ (n bc k : ℕ),
      ((evolution_init_go ns dflt n bc k).1).length = n
      ∧ ∀ b ∈ (evolution_init_go ns dflt n bc k).1, b.nn = dflt := by
  intro n
  induction n with
  | zero =>
    intro bc k
    exact ⟨rfl, by simp [evolution_init_go]⟩
  | succ n ih =>
    intro bc k
    simp only [evolution_init_go, List.length_cons]
    refine ⟨by rw [(ih _ _).1], fun b hb => ?_⟩
    rcases List.mem_cons.mp hb with h | h
    · rw [h]; rfl
    · exact (ih _ _).2 b h

/-- Claim C3: every agent constructed without an explicitly supplied
network receives the same single `NeuralNetwork` — Python evaluates the
default argument of `Bot.__init__` once, at class-definition time, and
that single value (`dflt` in the model) is handed to all `POPULATION`
calls `Bot()` of `EvolutionAlgorithm.__init__`; consequently any two
agents of the initial population give identical `feed_forward` outputs
on every input. -/
theorem initial_population_shares_one_network (ns : ℕ → ℕ)
    (dflt : NeuralNetwork) (bc k i j : ℕ)
    (hi : i < POPULATION) (hj : j < POPULATION) :
    (((evolution_init ns dflt bc k).1)[i]?).map Bot.nn = some dflt
    ∧ (((evolution_init ns dflt bc k).1)[j]?).map Bot.nn = some dflt
    ∧ ∀ (qexp : ℚ → ℚ) (data : List ℚ),
        (((evolution_init ns dflt bc k).1)[i]?).map
            (fun b => NeuralNetwork.feed_forward qexp b.nn data)
          = (((evolution_init ns dflt bc k).1)[j]?).map
            (fun b => NeuralNetwork.feed_forward qexp b.nn data) := by
  have hgo := evolution_init_go_nn ns dflt POPULATION bc k
  have hnth : ∀ m, m < POPULATION →
      (((evolution_init ns dflt bc k).1)[m]?).map Bot.nn = some dflt := by
    intro m hm
    have hm' : m < ((evolution_init ns dflt bc k).1).length := by
      simpa [evolution_init, hgo.1] using hm
    rw [List.getElem?_eq_getElem hm']
    simp only [Option.map_some']
    exact congrArg some (hgo.2 _ (List.getElem_mem hm'))
  have hi' := hnth i hi
  have hj' := hnth j hj
  refine ⟨hi', hj', fun qexp data => ?_⟩
  obtain ⟨b1, hb1⟩ : ∃ b1, ((evolution_init ns dflt bc k).1)[i]? = some b1 := by
    cases h : ((evolution_init ns dflt bc k).1)[i]? with
    | none => rw [h] at hi'; simp at hi'
    | some b => exact ⟨b, rfl⟩
  obtain ⟨b2, hb2⟩ : ∃ b2, ((evolution_init ns dflt bc k).1)[j]? = some b2 := by
    cases h : ((evolution_init ns dflt bc k).1)[j]? with
    | none => rw [h] at hj'; simp at hj'
    | some b => exact ⟨b, rfl⟩
  rw [hb1] at hi'
  rw [hb2] at hj'
  rw [hb1, hb2]
  simp only [Option.map_some', Option.some.injEq] at hi' hj' ⊢
  rw [hi', hj']

theorem initial_population_shares_one_network_witness :
    (((evolution_init (fun _ => 0) w_net 0 0).1)[0]?).map Bot.nn = some w_net
    ∧ (((evolution_init (fun _ => 0) w_net 0 0).1)[1]?).map Bot.nn = some w_net
    ∧ (((evolution_init (fun _ => 0) w_net 0 0).1)[0]?).map
          (fun b => NeuralNetwork.feed_forward id b.nn [])
        = (((evolution_init (fun _ => 0) w_net 0 0).1)[1]?).map
          (fun b => NeuralNetwork.feed_forward id b.nn []) :=
  ⟨(initial_population_shares_one_network (fun _ => 0) w_net 0 0 0 1
      (by decide) (by decide)).1,
    (initial_population_shares_one_network (fun _ => 0) w_net 0 0 0 1
      (by decide) (by decide)).2.1,
    (initial_population_shares_one_network (fun _ => 0) w_net 0 0 0 1
      (by decide) (by decide)).2.2 id []⟩

/-- Claim C10: under the (satisfied) configuration invariant that the
capture threshold `MIN_DISTANCE_TO_CAPTURE = 7` is strictly positive,
whenever `Bot.update` runs — which `BotWorld.update` does exactly when
the capture test `distance < MIN_DISTANCE_TO_CAPTURE` failed, and with
the same distance expression `distance(food.x, food.y, bot.x, bot.y)`
recomputed on unchanged positions — the divisor of the normalized
direction inputs is at least the threshold, hence nonzero, and the
`ZeroDivisionError` branch of `Bot.update` is not taken. -/
theorem move_divisor_never_zero (qexp qsqrt : ℚ → ℚ) (b : Bot) (f : Food)
    (h : ¬ distance qsqrt f.x f.y b.x b.y < MIN_DISTANCE_TO_CAPTURE) :
    (0 : ℚ) < MIN_DISTANCE_TO_CAPTURE
    ∧ MIN_DISTANCE_TO_CAPTURE ≤ distance qsqrt f.x f.y b.x b.y
    ∧ distance qsqrt f.x f.y b.x b.y ≠ 0
    ∧ Bot.update qexp qsqrt b f
        = Bot.move qexp b f (distance qsqrt f.x f.y b.x b.y) := by
  have hT : (0 : ℚ) < MIN_DISTANCE_TO_CAPTURE := by
    norm_num [MIN_DISTANCE_TO_CAPTURE, BOT_SIZE_HALF, FOOD_SIZE_HALF,
      BOT_SIZE, FOOD_SIZE]
  have hle := not_lt.mp h
  have hne : distance qsqrt f.x f.y b.x b.y ≠ 0 :=
    ne_of_gt (lt_of_lt_of_le hT hle)
  refine ⟨hT, hle, hne, ?_⟩
  unfold Bot.update
  exact if_neg hne

theorem move_divisor_never_zero_witness :
    (0 : ℚ) < MIN_DISTANCE_TO_CAPTURE
    ∧ MIN_DISTANCE_TO_CAPTURE ≤ distance id w_food_far.x w_food_far.y
        w_bot.x w_bot.y
    ∧ distance id w_food_far.x w_food_far.y w_bot.x w_bot.y ≠ 0
    ∧ Bot.update id id w_bot w_food_far
        = Bot.move id w_bot w_food_far
            (distance id w_food_far.x w_food_far.y w_bot.x w_bot.y) :=
  move_divisor_never_zero id id w_bot w_food_far
    (by norm_num [distance, w_bot, w_food_far, MIN_DISTANCE_TO_CAPTURE,
      BOT_SIZE_HALF, FOOD_SIZE_HALF, BOT_SIZE, FOOD_SIZE])

/-- The clamp of `rand_uniform` stays in `[a, b]` when `a ≤ b`. -/
theorem rand_uniform_mem (qs : ℕ → ℚ) (a b : ℚ) (k : ℕ) (h : a ≤ b) :
    a ≤ (rand_uniform qs a b k).1 ∧ (rand_uniform qs a b k).1 ≤ b := by
  simp only [rand_uniform]
  constructor
  · split
    · exact le_refl a
    · split
      · exact h
      · linarith [not_lt.mp (by assumption : ¬ qs k < a)]
  · split
    · exact h
    · split
      · exact le_refl b
      · exact not_lt.mp (by assumption)

/-- `rand_randint` stays in `[a, b]` when `a ≤ b`. -/
theorem rand_randint_mem (ns : ℕ → ℕ) (a b k : ℕ) (h : a ≤ b) :
    a ≤ (rand_randint ns a b k).1 ∧ (rand_randint ns a b k).1 ≤ b := by
  have hm : ns k % (b + 1 - a) < b + 1 - a := Nat.mod_lt _ (by omega)
  simp only [rand_randint]
  omega

/-- Index-for-index description of a one-point crossover list
`first[:c] + second[c:]`. -/
theorem crossed_props (first second : List Gene) (c : ℕ)
    (h1 : first.length = second.length) (hc : c ≤ first.length) :
    (first.take c ++ second.drop c).length = first.length
    ∧ (∀ i, i < c → (first.take c ++ second.drop c)[i]? = first[i]?)
    ∧ (∀ i, c ≤ i → (first.take c ++ second.drop c)[i]? = second[i]?) := by
  have htake : (first.take c).length = c := by
    simp only [List.length_take]
    omega
  refine ⟨?_, fun i hi => ?_, fun i hi => ?_⟩
  · simp only [List.length_append, List.length_take, List.length_drop]
    omega
  · rw [List.getElem?_append_left (by omega : i < (first.take c).length),
      List.getElem?_take]
    simp [hi]
  · rw [List.getElem?_append_right (by rw [htake]; omega), htake,
      List.getElem?_drop]
    congr 1
    omega

/-- Claim C8: in the breeding block of `EvolutionAlgorithm.train`, with
two selected parents of the same topology (equal-length encoded weight
lists, of length at least 2), the crossover index `c` lies in
`[1, genome_length - 1]`; before mutation the child is one parent's
prefix `[0, c)` followed index-for-index by the other parent's suffix
(which parent contributes the prefix is decided by the `randint(0, 1)`
coin); the child has the parents' length; and afterwards at most one
index is overwritten, with a fresh `uniform(-1, 1)` value. -/
theorem crossover_child_structure (qs : ℕ → ℚ) (ns : ℕ → ℕ)
    (pa pb : List Gene) (k : ℕ)
    (hab : pb.length = pa.length) (hL : 2 ≤ pa.length) :
    ∃ c, 1 ≤ c ∧ c ≤ pa.length - 1 ∧
    ∃ first second : List Gene,
      ((first, second) = (pa, pb) ∨ (first, second) = (pb, pa))
      ∧ (first.take c ++ second.drop c).length = pa.length
      ∧ (∀ i, i < c → (first.take c ++ second.drop c)[i]? = first[i]?)
      ∧ (∀ i, c ≤ i → (first.take c ++ second.drop c)[i]? = second[i]?)
      ∧ ((breed_genome qs ns pa pb k).1 = first.take c ++ second.drop c
          ∨ ∃ m v, m < pa.length ∧ -1 ≤ v ∧ v ≤ 1
              ∧ (breed_genome qs ns pa pb k).1
                  = (first.take c ++ second.drop c).set m (Sum.inr v))
      ∧ (breed_genome qs ns pa pb k).1.length = pa.length := by
  have hmod : ns k % (pa.length - 1) < pa.length - 1 :=
    Nat.mod_lt _ (by omega)
  have hcval : (rand_randint ns 1 (pa.length - 1) k).1
      = 1 + ns k % (pa.length - 1) := by
    simp [rand_randint]
  have hcle : (rand_randint ns 1 (pa.length - 1) k).1 ≤ pa.length := by omega
  have hcle' : (rand_randint ns 1 (pa.length - 1) k).1 ≤ pb.length := by omega
  refine ⟨(rand_randint ns 1 (pa.length - 1) k).1, by omega, by omega, ?_⟩
  by_cases hcoin :
      (rand_randint ns 0 1 (rand_randint ns 1 (pa.length - 1) k).2).1 ≠ 0
  case pos =>
    obtain ⟨hlen, hpre, hsuf⟩ :=
      crossed_props pa pb (rand_randint ns 1 (pa.length - 1) k).1 hab.symm hcle
    by_cases hg :
        (rand_random qs
          (rand_randint ns 0 1 (rand_randint ns 1 (pa.length - 1) k).2).2).1
        < EVOLUTION_MUTATION_RATE
    · have hbg : (breed_genome qs ns pa pb k).1
          = (pa.take (rand_randint ns 1 (pa.length - 1) k).1
              ++ pb.drop (rand_randint ns 1 (pa.length - 1) k).1).set
              (rand_randint ns 0
                ((pa.take (rand_randint ns 1 (pa.length - 1) k).1
                  ++ pb.drop (rand_randint ns 1 (pa.length - 1) k).1).length
                  - 1)
                (rand_random qs (rand_randint ns 0 1
                  (rand_randint ns 1 (pa.length - 1) k).2).2).2).1
              (Sum.inr (rand_uniform qs (-1) 1
                (rand_randint ns 0
                  ((pa.take (rand_randint ns 1 (pa.length - 1) k).1
                    ++ pb.drop (rand_randint ns 1 (pa.length - 1) k).1).length
                    - 1)
                  (rand_random qs (rand_randint ns 0 1
                    (rand_randint ns 1 (pa.length - 1) k).2).2).2).2).1) := by
        simp only [breed_genome]
        rw [if_pos hcoin, if_pos hg]
      have hmlt : (rand_randint ns 0
          ((pa.take (rand_randint ns 1 (pa.length - 1) k).1
            ++ pb.drop (rand_randint ns 1 (pa.length - 1) k).1).length - 1)
          (rand_random qs (rand_randint ns 0 1
            (rand_randint ns 1 (pa.length - 1) k).2).2).2).1 < pa.length := by
        have hb2 := (rand_randint_mem ns 0
          ((pa.take (rand_randint ns 1 (pa.length - 1) k).1
            ++ pb.drop (rand_randint ns 1 (pa.length - 1) k).1).length - 1)
          (rand_random qs (rand_randint ns 0 1
            (rand_randint ns 1 (pa.length - 1) k).2).2).2
          (Nat.zero_le _)).2
        omega
      exact ⟨pa, pb, Or.inl rfl, hlen, hpre, hsuf,
        Or.inr ⟨_, _, hmlt, (rand_uniform_mem qs (-1) 1 _ (by norm_num)).1,
          (rand_uniform_mem qs (-1) 1 _ (by norm_num)).2, hbg⟩,
        by rw [hbg, List.length_set]; exact hlen⟩
    · have hbg : (breed_genome qs ns pa pb k).1
          = pa.take (rand_randint ns 1 (pa.length - 1) k).1
              ++ pb.drop (rand_randint ns 1 (pa.length - 1) k).1 := by
        simp only [breed_genome]
        rw [if_pos hcoin, if_neg hg]
      exact ⟨pa, pb, Or.inl rfl, hlen, hpre, hsuf, Or.inl hbg,
        by rw [hbg]; exact hlen⟩
  case neg =>
    obtain ⟨hlen0, hpre, hsuf⟩ :=
      crossed_props pb pa (rand_randint ns 1 (pa.length - 1) k).1 hab hcle'
    have hlen : (pb.take (rand_randint ns 1 (pa.length - 1) k).1
        ++ pa.drop (rand_randint ns 1 (pa.length - 1) k).1).length
        = pa.length := by
      rw [hlen0, hab]
    by_cases hg :
        (rand_random qs
          (rand_randint ns 0 1 (rand_randint ns 1 (pa.length - 1) k).2).2).1
        < EVOLUTION_MUTATION_RATE
    · have hbg : (breed_genome qs ns pa pb k).1
          = (pb.take (rand_randint ns 1 (pa.length - 1) k).1
              ++ pa.drop (rand_randint ns 1 (pa.length - 1) k).1).set
              (rand_randint ns 0
                ((pb.take (rand_randint ns 1 (pa.length - 1) k).1
                  ++ pa.drop (rand_randint ns 1 (pa.length - 1) k).1).length
                  - 1)
                (rand_random qs (rand_randint ns 0 1
                  (rand_randint ns 1 (pa.length - 1) k).2).2).2).1
              (Sum.inr (rand_uniform qs (-1) 1
                (rand_randint ns 0
                  ((pb.take (rand_randint ns 1 (pa.length - 1) k).1
                    ++ pa.drop (rand_randint ns 1 (pa.length - 1) k).1).length
                    - 1)
                  (rand_random qs (rand_randint ns 0 1
                    (rand_randint ns 1 (pa.length - 1) k).2).2).2).2).1) := by
        simp only [breed_genome]
        rw [if_neg hcoin, if_pos hg]
      have hmlt : (rand_randint ns 0
          ((pb.take (rand_randint ns 1 (pa.length - 1) k).1
            ++ pa.drop (rand_randint ns 1 (pa.length - 1) k).1).length - 1)
          (rand_random qs (rand_randint ns 0 1
            (rand_randint ns 1 (pa.length - 1) k).2).2).2).1 < pa.length := by
        have hb2 := (rand_randint_mem ns 0
          ((pb.take (rand_randint ns 1 (pa.length - 1) k).1
            ++ pa.drop (rand_randint ns 1 (pa.length - 1) k).1).length - 1)
          (rand_random qs (rand_randint ns 0 1
            (rand_randint ns 1 (pa.length - 1) k).2).2).2
          (Nat.zero_le _)).2
        omega
      exact ⟨pb, pa, Or.inr rfl, hlen, hpre, hsuf,
        Or.inr ⟨_, _, hmlt, (rand_uniform_mem qs (-1) 1 _ (by norm_num)).1,
          (rand_uniform_mem qs (-1) 1 _ (by norm_num)).2, hbg⟩,
        by rw [hbg, List.length_set]; exact hlen⟩
    · have hbg : (breed_genome qs ns pa pb k).1
          = pb.take (rand_randint ns 1 (pa.length - 1) k).1
              ++ pa.drop (rand_randint ns 1 (pa.length - 1) k).1 := by
        simp only [breed_genome]
        rw [if_neg hcoin, if_neg hg]
      exact ⟨pb, pa, Or.inr rfl, hlen, hpre, hsuf, Or.inl hbg,
        by rw [hbg]; exact hlen⟩

theorem crossover_child_structure_witness :
    ∃ c, 1 ≤ c ∧ c ≤ ([Sum.inr 1, Sum.inr 2] : List Gene).length - 1 ∧
    ∃ first second : List Gene,
      ((first, second) = ([Sum.inr 1, Sum.inr 2], [Sum.inr 3, Sum.inr 4])
        ∨ (first, second) = ([Sum.inr 3, Sum.inr 4], [Sum.inr 1, Sum.inr 2]))
      ∧ (first.take c ++ second.drop c).length
          = ([Sum.inr 1, Sum.inr 2] : List Gene).length
      ∧ (∀ i, i < c → (first.take c ++ second.drop c)[i]? = first[i]?)
      ∧ (∀ i, c ≤ i → (first.take c ++ second.drop c)[i]? = second[i]?)
      ∧ ((breed_genome (fun _ => 0) (fun _ => 0)
            [Sum.inr 1, Sum.inr 2] [Sum.inr 3, Sum.inr 4] 0).1
            = first.take c ++ second.drop c
          ∨ ∃ m v, m < ([Sum.inr 1, Sum.inr 2] : List Gene).length
              ∧ -1 ≤ v ∧ v ≤ 1
              ∧ (breed_genome (fun _ => 0) (fun _ => 0)
                  [Sum.inr 1, Sum.inr 2] [Sum.inr 3, Sum.inr 4] 0).1
                  = (first.take c ++ second.drop c).set m (Sum.inr v))
      ∧ (breed_genome (fun _ => 0) (fun _ => 0)
          [Sum.inr 1, Sum.inr 2] [Sum.inr 3, Sum.inr 4] 0).1.length
          = ([Sum.inr 1, Sum.inr 2] : List Gene).length :=
  crossover_child_structure (fun _ => 0) (fun _ => 0)
    [Sum.inr 1, Sum.inr 2] [Sum.inr 3, Sum.inr 4] 0 (by decide) (by decide)

/-- If the nearest-food scan returns a target id, that id belongs to the
scanned food list (or was already the incoming accumulator). -/
theorem find_target_go_mem (qsqrt : ℚ → ℚ) (bx byy : ℚ) :
    ∀ (foods : List Food) (best : Option ℕ) (mind : Option ℚ) (tid : ℕ),
      (find_target_go qsqrt bx byy foods best mind).1 = some tid →
      tid ∈ foods.map Food.id ∨ best = some tid := by
  intro foods
  induction foods with
  | nil =>
    intro best mind tid h
    exact Or.inr h
  | cons f rest ih =>
    intro best mind tid h
    cases mind with
    | none =>
      have h' : (find_target_go qsqrt bx byy rest (some f.id)
          (some (distance qsqrt f.x f.y bx byy))).1 = some tid := h
      rcases ih _ _ _ h' with hmem | hbest
      · exact Or.inl (List.mem_cons_of_mem _ hmem)
      · refine Or.inl ?_
        simp only [Option.some.injEq] at hbest
        simp [← hbest]
    | some m =>
      have hr : find_target_go qsqrt bx byy (f :: rest) best (some m)
          = if distance qsqrt f.x f.y bx byy < m then
              find_target_go qsqrt bx byy rest (some f.id)
                (some (distance qsqrt f.x f.y bx byy))
            else find_target_go qsqrt bx byy rest best (some m) := rfl
      by_cases hd : distance qsqrt f.x f.y bx byy < m
      · rw [hr, if_pos hd] at h
        rcases ih _ _ _ h with hmem | hbest
        · exact Or.inl (List.mem_cons_of_mem _ hmem)
        · refine Or.inl ?_
          simp only [Option.some.injEq] at hbest
          simp [← hbest]
      · rw [hr, if_neg hd] at h
        rcases ih _ _ _ h with hmem | hbest
        · exact Or.inl (List.mem_cons_of_mem _ hmem)
        · exact Or.inr hbest

/-- The target set by `BotWorld.update`'s scan is a key of the food
dict. -/
theorem find_target_mem (qsqrt : ℚ → ℚ) (foods : List Food) (bx byy : ℚ)
    (tid : ℕ) (h : (find_target qsqrt foods bx byy).1 = some tid) :
    tid ∈ foods.map Food.id := by
  rcases find_target_go_mem qsqrt bx byy foods none none tid h with hm | hb
  · exact hm
  · exact absurd hb (by simp)

/-- Popping an id that occurs exactly once (ids are nodup and the id is
present) shortens the dict by exactly one entry. -/
theorem filter_out_id_length :
    ∀ (l : List Food) (fid : ℕ),
      (l.map Food.id).Nodup → fid ∈ l.map Food.id →
      (l.filter (fun g => g.id ≠ fid)).length = l.length - 1 := by
  intro l
  induction l with
  | nil =>
    intro fid _ hmem
    simp at hmem
  | cons a l ih =>
    intro fid hnd hmem
    simp only [List.map_cons, List.nodup_cons] at hnd
    by_cases hid : a.id = fid
    · have hrest : ∀ g ∈ l, g.id ≠ fid := by
        intro g hg hgf
        exact hnd.1 (by rw [hid, ← hgf]; exact List.mem_map_of_mem Food.id hg)
      have hself : l.filter (fun g => g.id ≠ fid) = l := by
        apply List.filter_eq_self.mpr
        intro g hg
        simpa using hrest g hg
      simp only [List.filter_cons]
      rw [if_neg (by simp [hid])]
      rw [hself]
      simp
    · have hmem' : fid ∈ l.map Food.id := by
        rcases List.mem_cons.mp hmem with h | h
        · exact absurd h.symm hid
        · exact h
      have hlen := ih fid hnd.2 hmem'
      have hl1 : 0 < l.length := by
        rcases List.mem_map.mp hmem' with ⟨g, hg, _⟩
        exact List.length_pos.mpr (List.ne_nil_of_mem hg)
      simp only [List.filter_cons, List.length_cons]
      rw [if_pos (by simpa using hid)]
      simp only [List.length_cons, hlen]
      omega

/-- What `replace_food` does under the id invariants: the dict keeps its
size and its id invariants, the popped id is gone, and the one new food
carries the freshly allocated id `fc` (never previously in the dict) and
an in-bounds random position. -/
theorem replace_food_spec (ns : ℕ → ℕ) (foods : List Food) (fc k fid : ℕ)
    (hlt : ∀ g ∈ foods, g.id < fc) (hnd : (foods.map Food.id).Nodup)
    (hmem : fid ∈ foods.map Food.id) :
    ((replace_food ns foods fc k fid).1).length = foods.length
    ∧ (replace_food ns foods fc k fid).2.1 = fc + 1
    ∧ (∀ g ∈ (replace_food ns foods fc k fid).1, g.id < fc + 1)
    ∧ (((replace_food ns foods fc k fid).1).map Food.id).Nodup
    ∧ fc ∉ foods.map Food.id
    ∧ (∃ xn yn : ℕ, 100 ≤ xn ∧ xn ≤ WIDTH - 100 ∧ 100 ≤ yn
        ∧ yn ≤ HEIGHT - 100
        ∧ ({ id := fc, x := (xn : ℚ), y := (yn : ℚ) } : Food)
            ∈ (replace_food ns foods fc k fid).1)
    ∧ (∀ g ∈ (replace_food ns foods fc k fid).1, g.id ≠ fid) := by
  have hfcnot : fc ∉ foods.map Food.id := by
    intro hin
    rcases List.mem_map.mp hin with ⟨g, hg, hgid⟩
    exact absurd hgid (Nat.ne_of_lt (hlt g hg))
  have hins : dict_set foods (mk_food ns fc k).1
      = foods ++ [(mk_food ns fc k).1] := by
    have hc : ¬ (foods.any (fun g => g.id = (mk_food ns fc k).1.id) = true) := by
      simp only [List.any_eq_true, decide_eq_true_eq, not_exists, not_and]
      intro g hg
      exact Nat.ne_of_lt (hlt g hg)
    unfold dict_set
    rw [if_neg hc]
  have hfid_ne : (mk_food ns fc k).1.id ≠ fid := by
    show fc ≠ fid
    intro heq
    exact hfcnot (heq ▸ hmem)
  have hids : (foods ++ [(mk_food ns fc k).1]).map Food.id
      = foods.map Food.id ++ [fc] := by
    simp [mk_food]
  have hnd' : ((foods ++ [(mk_food ns fc k).1]).map Food.id).Nodup := by
    rw [hids]
    simp [List.nodup_append, hnd, hfcnot]
  have hmem' : fid ∈ (foods ++ [(mk_food ns fc k).1]).map Food.id := by
    rw [hids]
    exact List.mem_append_left _ hmem
  have hrepl0 : (replace_food ns foods fc k fid).1
      = (dict_set foods (mk_food ns fc k).1).filter
          (fun g => g.id ≠ fid) := rfl
  have hrepl : (replace_food ns foods fc k fid).1
      = (foods ++ [(mk_food ns fc k).1]).filter (fun g => g.id ≠ fid) := by
    rw [hrepl0, hins]
  have hx := rand_randint_mem ns 100 (WIDTH - 100) k (by norm_num [WIDTH])
  have hy := rand_randint_mem ns 100 (HEIGHT - 100)
    (rand_randint ns 100 (WIDTH - 100) k).2 (by norm_num [HEIGHT])
  refine ⟨?_, rfl, ?_, ?_, hfcnot, ?_, ?_⟩
  · rw [hrepl, filter_out_id_length _ fid hnd' hmem']
    simp
  · intro g hg
    rw [hrepl] at hg
    have hg' : g ∈ foods ++ [(mk_food ns fc k).1] :=
      List.mem_of_mem_filter hg
    rcases List.mem_append.mp hg' with h | h
    · exact Nat.lt_succ_of_lt (hlt g h)
    · have : g = (mk_food ns fc k).1 := by simpa using h
      rw [this]
      show fc < fc + 1
      omega
  · rw [hrepl]
    exact List.Nodup.sublist ((List.filter_sublist _).map Food.id) hnd'
  · refine ⟨(rand_randint ns 100 (WIDTH - 100) k).1,
      (rand_randint ns 100 (HEIGHT - 100)
        (rand_randint ns 100 (WIDTH - 100) k).2).1,
      hx.1, hx.2, hy.1, hy.2, ?_⟩
    rw [hrepl]
    apply List.mem_filter.mpr
    refine ⟨List.mem_append_right _ ?_, by simpa using hfid_ne⟩
    simp [mk_food, entity_pos]
  · intro g hg
    rw [hrepl] at hg
    have := (List.mem_filter.mp hg).2
    simpa using this

/-- When the nearest-food scan found a target `tid` that the dict lookup
resolves to `f`, one bot's turn is exactly the capture-or-move
conditional of `BotWorld.update` on the recomputed distance. -/
theorem bot_tick_eq (qexp qsqrt : ℚ → ℚ) (ns : ℕ → ℕ)
    (foods : List Food) (fc k : ℕ) (b : Bot) (tid : ℕ) (f : Food)
    (hft : (find_target qsqrt foods b.x b.y).1 = some tid)
    (hfg : food_get foods tid = some f) :
    bot_tick qexp qsqrt ns foods fc k b
      = if distance qsqrt f.x f.y b.x b.y < MIN_DISTANCE_TO_CAPTURE then
          some ({ b with target := some tid, score := b.score + 1 },
            (replace_food ns foods fc k tid).1,
            (replace_food ns foods fc k tid).2.1,
            (replace_food ns foods fc k tid).2.2)
        else
          match Bot.update qexp qsqrt { b with target := some tid } f with
          | none => none
          | some b2 => some (b2, foods, fc, k) := by
  unfold bot_tick
  simp only [hft, hfg]

/-- One bot's turn preserves the food-dict size and the id invariants:
a capture goes through `replace_food` and a move leaves the dict
untouched. -/
theorem bot_tick_preserves (qexp qsqrt : ℚ → ℚ) (ns : ℕ → ℕ)
    (foods : List Food) (fc k : ℕ) (b : Bot)
    (res : Bot × List Food × ℕ × ℕ)
    (hlt : ∀ g ∈ foods, g.id < fc) (hnd : (foods.map Food.id).Nodup)
    (h : bot_tick qexp qsqrt ns foods fc k b = some res) :
    res.2.1.length = foods.length
    ∧ (∀ g ∈ res.2.1, g.id < res.2.2.1)
    ∧ (res.2.1.map Food.id).Nodup := by
  cases hft : (find_target qsqrt foods b.x b.y).1 with
  | none =>
    unfold bot_tick at h
    rw [hft] at h
    simp at h
  | some tid =>
    cases hfg : food_get foods tid with
    | none =>
      unfold bot_tick at h
      rw [hft] at h
      simp only [hfg] at h
      exact Option.noConfusion h
    | some f =>
      rw [bot_tick_eq qexp qsqrt ns foods fc k b tid f hft hfg] at h
      by_cases hdist :
          distance qsqrt f.x f.y b.x b.y < MIN_DISTANCE_TO_CAPTURE
      · rw [if_pos hdist] at h
        have hres := Option.some.inj h
        subst hres
        obtain ⟨hr1, hr2, hr3, hr4, -, -, -⟩ :=
          replace_food_spec ns foods fc k tid hlt hnd
            (find_target_mem qsqrt foods b.x b.y tid hft)
        refine ⟨hr1, ?_, hr4⟩
        show ∀ g ∈ (replace_food ns foods fc k tid).1,
          g.id < (replace_food ns foods fc k tid).2.1
        rw [hr2]
        exact hr3
      · rw [if_neg hdist] at h
        cases hbu : Bot.update qexp qsqrt { b with target := some tid } f with
        | none =>
          rw [hbu] at h
          simp at h
        | some b2 =>
          rw [hbu] at h
          have hres := Option.some.inj h
          subst hres
          exact ⟨rfl, hlt, hnd⟩

/-- The per-frame bot loop preserves the food-dict size and the id
invariants. -/
theorem bots_for_loop_preserves (qexp qsqrt : ℚ → ℚ) (ns : ℕ → ℕ) :
    ∀ (bots : List Bot) (foods : List Food) (fc k : ℕ)
      (res : List Bot × List Food × ℕ × ℕ),
      (∀ g ∈ foods, g.id < fc) → (foods.map Food.id).Nodup →
      bots_for_loop qexp qsqrt ns bots foods fc k = some res →
      res.2.1.length = foods.length
      ∧ (∀ g ∈ res.2.1, g.id < res.2.2.1)
      ∧ (res.2.1.map Food.id).Nodup := by
  intro bots
  induction bots with
  | nil =>
    intro foods fc k res h1 h2 h
    have hres := Option.some.inj h
    subst hres
    exact ⟨rfl, h1, h2⟩
  | cons b bots ih =>
    intro foods fc k res h1 h2 h
    unfold bots_for_loop at h
    cases hbt : bot_tick qexp qsqrt ns foods fc k b with
    | none =>
      rw [hbt] at h
      simp at h
    | some s =>
      simp only [hbt] at h
      obtain ⟨hs1, hs2, hs3⟩ :=
        bot_tick_preserves qexp qsqrt ns foods fc k b s h1 h2 hbt
      cases hlp : bots_for_loop qexp qsqrt ns bots s.2.1 s.2.2.1 s.2.2.2 with
      | none =>
        simp only [hlp] at h
        exact Option.noConfusion h
      | some t =>
        simp only [hlp] at h
        obtain ⟨ht1, ht2, ht3⟩ := ih s.2.1 s.2.2.1 s.2.2.2 t hs2 hs3 hlp
        have hres := Option.some.inj h
        subst hres
        exact ⟨ht1.trans hs1, ht2, ht3⟩

/-- Any number of frames of `BotWorld.update` preserves the number of
active food entities. -/
theorem world_update_preserves (qexp qsqrt : ℚ → ℚ) (ns : ℕ → ℕ) :
    ∀ (n : ℕ) (bots : List Bot) (foods : List Food) (fc k : ℕ)
      (res : List Bot × List Food × ℕ × ℕ),
      (∀ g ∈ foods, g.id < fc) → (foods.map Food.id).Nodup →
      world_update qexp qsqrt ns n bots foods fc k = some res →
      res.2.1.length = foods.length := by
  intro n
  induction n with
  | zero =>
    intro bots foods fc k res _ _ h
    have hres := Option.some.inj h
    subst hres
    rfl
  | succ n ih =>
    intro bots foods fc k res h1 h2 h
    unfold world_update at h
    cases hlp : bots_for_loop qexp qsqrt ns bots foods fc k with
    | none =>
      rw [hlp] at h
      simp at h
    | some s =>
      simp only [hlp] at h
      obtain ⟨hs1, hs2, hs3⟩ :=
        bots_for_loop_preserves qexp qsqrt ns bots foods fc k s h1 h2 hlp
      have := ih s.1 s.2.1 s.2.2.1 s.2.2.2 res hs2 hs3 h
      exact this.trans hs1

/-- `BotWorld.__init__` creates exactly `n` foods whose ids are the `n`
fresh consecutive counter values, hence distinct. -/
theorem mk_foods_spec (ns : ℕ → ℕ) :
    ∀ (n fc k : ℕ),
      ((mk_foods ns n fc k).1).length = n
      ∧ (mk_foods ns n fc k).2.1 = fc + n
      ∧ (∀ g ∈ (mk_foods ns n fc k).1, fc ≤ g.id ∧ g.id < fc + n)
      ∧ (((mk_foods ns n fc k).1).map Food.id).Nodup := by
  intro n
  induction n with
  | zero =>
    intro fc k
    exact ⟨rfl, rfl, by simp [mk_foods], by simp [mk_foods]⟩
  | succ n ih =>
    intro fc k
    obtain ⟨ih1, ih2, ih3, ih4⟩ := ih (fc + 1) (mk_food ns fc k).2.2
    have hcons : (mk_foods ns (n + 1) fc k).1
        = (mk_food ns fc k).1
            :: (mk_foods ns n (fc + 1) (mk_food ns fc k).2.2).1 := rfl
    have hid : (mk_food ns fc k).1.id = fc := rfl
    refine ⟨?_, ?_, ?_, ?_⟩
    · rw [hcons]
      simp [ih1]
    · show (mk_foods ns n (fc + 1) (mk_food ns fc k).2.2).2.1 = fc + (n + 1)
      rw [ih2]
      omega
    · intro g hg
      rw [hcons] at hg
      rcases List.mem_cons.mp hg with h | h
      · rw [h, hid]
        omega
      · have := ih3 g h
        omega
    · rw [hcons]
      simp only [List.map_cons, List.nodup_cons]
      refine ⟨?_, ih4⟩
      intro hin
      rcases List.mem_map.mp hin with ⟨g, hg, hgid⟩
      have := ih3 g hg
      rw [hid] at hgid
      omega

/-- Claim C6: a world whose food dict has the configured supply count
(with the global-counter id invariants, as established at world
construction) still has exactly `FOOD_SUPPLY` active foods after every
completed tick of `BotWorld.update`; the `__init__` loop itself creates
exactly `FOOD_SUPPLY` foods with fresh distinct ids; and each capture's
`replace_food` keeps the size, removes exactly the captured id, and
adds exactly one food with the freshly allocated (never seen) id and a
random in-bounds position. -/
theorem resource_count_invariant (qexp qsqrt : ℚ → ℚ) (ns : ℕ → ℕ)
    (n : ℕ) (bots : List Bot) (foods : List Food) (fc k : ℕ)
    (res : List Bot × List Food × ℕ × ℕ)
    (hsup : foods.length = FOOD_SUPPLY)
    (hlt : ∀ g ∈ foods, g.id < fc)
    (hnd : (foods.map Food.id).Nodup)
    (h : world_update qexp qsqrt ns n bots foods fc k = some res) :
    res.2.1.length = FOOD_SUPPLY
    ∧ (((mk_foods ns FOOD_SUPPLY fc k).1).length = FOOD_SUPPLY
        ∧ (∀ g ∈ (mk_foods ns FOOD_SUPPLY fc k).1,
            g.id < (mk_foods ns FOOD_SUPPLY fc k).2.1)
        ∧ ((((mk_foods ns FOOD_SUPPLY fc k).1).map Food.id)).Nodup)
    ∧ ∀ fid ∈ foods.map Food.id,
        ((replace_food ns foods fc k fid).1).length = foods.length
        ∧ fc ∉ foods.map Food.id
        ∧ (∀ g ∈ (replace_food ns foods fc k fid).1, g.id ≠ fid)
        ∧ (∃ xn yn : ℕ, 100 ≤ xn ∧ xn ≤ WIDTH - 100 ∧ 100 ≤ yn
            ∧ yn ≤ HEIGHT - 100
            ∧ ({ id := fc, x := (xn : ℚ), y := (yn : ℚ) } : Food)
                ∈ (replace_food ns foods fc k fid).1) := by
  obtain ⟨hm1, hm2, hm3, hm4⟩ := mk_foods_spec ns FOOD_SUPPLY fc k
  refine ⟨(world_update_preserves qexp qsqrt ns n bots foods fc k res
      hlt hnd h).trans hsup,
    ⟨hm1, fun g hg => ?_, hm4⟩, fun fid hfid => ?_⟩
  · rw [hm2]
    exact (hm3 g hg).2
  · obtain ⟨hr1, -, -, -, hr5, hr6, hr7⟩ :=
      replace_food_spec ns foods fc k fid hlt hnd hfid
    exact ⟨hr1, hr5, hr7, hr6⟩

/-- Claim C7: in a tick, for a bot whose nearest-target scan yields
`tid` resolving to food `f`, the capture (score incremented by one and
the targeted food replaced) happens exactly when the recomputed
Euclidean distance is strictly below `MIN_DISTANCE_TO_CAPTURE`; when
the distance is not below the threshold — in particular when it equals
it exactly — no capture happens and the bot instead moves by its
network's output via `Bot.update`. -/
theorem capture_iff_strictly_below_threshold (qexp qsqrt : ℚ → ℚ)
    (ns : ℕ → ℕ) (foods : List Food) (fc k : ℕ) (b : Bot) (tid : ℕ)
    (f : Food)
    (hft : (find_target qsqrt foods b.x b.y).1 = some tid)
    (hfg : food_get foods tid = some f) :
    (distance qsqrt f.x f.y b.x b.y < MIN_DISTANCE_TO_CAPTURE →
      bot_tick qexp qsqrt ns foods fc k b
        = some ({ b with target := some tid, score := b.score + 1 },
            (replace_food ns foods fc k tid).1,
            (replace_food ns foods fc k tid).2.1,
            (replace_food ns foods fc k tid).2.2))
    ∧ (¬ distance qsqrt f.x f.y b.x b.y < MIN_DISTANCE_TO_CAPTURE →
      bot_tick qexp qsqrt ns foods fc k b
        = match Bot.update qexp qsqrt { b with target := some tid } f with
          | none => none
          | some b2 => some (b2, foods, fc, k))
    ∧ (distance qsqrt f.x f.y b.x b.y = MIN_DISTANCE_TO_CAPTURE →
      bot_tick qexp qsqrt ns foods fc k b
        = match Bot.update qexp qsqrt { b with target := some tid } f with
          | none => none
          | some b2 => some (b2, foods, fc, k)) := by
  have hbody := bot_tick_eq qexp qsqrt ns foods fc k b tid f hft hfg
  refine ⟨fun hlt => ?_, fun hge => ?_, fun heq => ?_⟩
  · rw [hbody, if_pos hlt]
  · rw [hbody, if_neg hge]
  · rw [hbody, if_neg (by rw [heq]; exact lt_irrefl _)]

theorem resource_count_invariant_witness :
    (([] : List Bot), c6_foods, c6_fc, c6_k).2.1.length = FOOD_SUPPLY
    ∧ (((mk_foods c6_ns FOOD_SUPPLY c6_fc c6_k).1).length = FOOD_SUPPLY
        ∧ (∀ g ∈ (mk_foods c6_ns FOOD_SUPPLY c6_fc c6_k).1,
            g.id < (mk_foods c6_ns FOOD_SUPPLY c6_fc c6_k).2.1)
        ∧ ((((mk_foods c6_ns FOOD_SUPPLY c6_fc c6_k).1).map Food.id)).Nodup)
    ∧ (((replace_food c6_ns c6_foods c6_fc c6_k 0).1).length
          = c6_foods.length
        ∧ c6_fc ∉ c6_foods.map Food.id
        ∧ (∀ g ∈ (replace_food c6_ns c6_foods c6_fc c6_k 0).1, g.id ≠ 0)
        ∧ (∃ xn yn : ℕ, 100 ≤ xn ∧ xn ≤ WIDTH - 100 ∧ 100 ≤ yn
            ∧ yn ≤ HEIGHT - 100
            ∧ ({ id := c6_fc, x := (xn : ℚ), y := (yn : ℚ) } : Food)
                ∈ (replace_food c6_ns c6_foods c6_fc c6_k 0).1)) :=
  have hthm := resource_count_invariant id id c6_ns 1 [] c6_foods c6_fc c6_k
    ([], c6_foods, c6_fc, c6_k)
    (mk_foods_spec c6_ns FOOD_SUPPLY 0 0).1
    (fun g hg => by
      have h1 := ((mk_foods_spec c6_ns FOOD_SUPPLY 0 0).2.2.1 g hg).2
      have h2 := (mk_foods_spec c6_ns FOOD_SUPPLY 0 0).2.1
      show g.id < (mk_foods c6_ns FOOD_SUPPLY 0 0).2.1
      omega)
    (mk_foods_spec c6_ns FOOD_SUPPLY 0 0).2.2.2
    rfl
  ⟨hthm.1, hthm.2.1, hthm.2.2 0 (by decide)⟩

theorem capture_iff_strictly_below_threshold_witness :
    bot_tick id id c6_ns [w_food_near] 20 0 w_bot
      = some ({ w_bot with target := some 5, score := w_bot.score + 1 },
          (replace_food c6_ns [w_food_near] 20 0 5).1,
          (replace_food c6_ns [w_food_near] 20 0 5).2.1,
          (replace_food c6_ns [w_food_near] 20 0 5).2.2)
    ∧ bot_tick id id c6_ns [w_food_far] 20 0 w_bot
      = match Bot.update id id { w_bot with target := some 5 } w_food_far with
        | none => none
        | some b2 => some (b2, [w_food_far], 20, 0) :=
  ⟨(capture_iff_strictly_below_threshold id id c6_ns [w_food_near] 20 0
      w_bot 5 w_food_near rfl rfl).1
      (by norm_num [distance, w_food_near, w_bot, MIN_DISTANCE_TO_CAPTURE,
        BOT_SIZE_HALF, FOOD_SIZE_HALF, BOT_SIZE, FOOD_SIZE]),
    (capture_iff_strictly_below_threshold id id c6_ns [w_food_far] 20 0
      w_bot 5 w_food_far rfl rfl).2.1
      (by norm_num [distance, w_food_far, w_bot, MIN_DISTANCE_TO_CAPTURE,
        BOT_SIZE_HALF, FOOD_SIZE_HALF, BOT_SIZE, FOOD_SIZE])⟩

end NetBots
